import Mathlib

/-
Verification development for the Microhomie `HomieDevice` class
(`homie/device.py`): a MicroPython implementation of the Homie MQTT
convention.  The device, its nodes and properties, the connection
handshake (`connection_handler`), the inbound-message router (`sub_cb`),
the payload-encoding publish helpers (`publish`, `broadcast`), the
metadata announcement (`publish_properties`) and the startup loop
(`run`) are embedded as pure Lean functions producing explicit traces
of the externally visible operations (MQTT subscribes/unsubscribes,
publishes, timed delays, event set/clear on the readiness gate).
-/

namespace Microhomie

/-- UTF-8 byte sequence of one character (the encoding `bytes(s, "utf-8")`
performs in Python). -/
def utf8Char (c : Char) : List Nat :=
  let n := c.toNat
  if n < 0x80 then [n]
  else if n < 0x800 then
    [0xC0 ||| (n >>> 6), 0x80 ||| (n &&& 0x3F)]
  else if n < 0x10000 then
    [0xE0 ||| (n >>> 12), 0x80 ||| ((n >>> 6) &&& 0x3F), 0x80 ||| (n &&& 0x3F)]
  else
    [0xF0 ||| (n >>> 18), 0x80 ||| ((n >>> 12) &&& 0x3F),
     0x80 ||| ((n >>> 6) &&& 0x3F), 0x80 ||| (n &&& 0x3F)]

/-- UTF-8 encoding of a string, as `bytes(str, "utf-8")` in Python. -/
def utf8Encode (s : String) : List Nat :=
  s.data.flatMap utf8Char

/-- A Python value passed as a publish payload: either a `bytes` object
(carried as its byte list) or a non-bytes value, of which the code only
ever passes `str` and `int` (`stats_interval`, uptime, free heap). -/
inductive PyVal where
  | bytes (b : List Nat)
  | pystr (s : String)
  | pyint (n : Int)
deriving DecidableEq

/-- Python `str()` on the non-bytes payload values the device publishes.
`publish`/`broadcast` test `isinstance(payload, bytes)` first, so `str()`
is never applied to a `bytes` payload; that branch is unreachable from
the embedded `publish`/`broadcast` and is given a dummy value. -/
def pyStr : PyVal → String
  | .bytes _ => ""
  | .pystr s => s
  | .pyint n => toString n

/-- A `bytes` literal such as `b"ready"`: the bytes of an ASCII/UTF-8
string. -/
def bstr (s : String) : PyVal :=
  .bytes (utf8Encode s)

/-- A node property (`settable`/`restore` flags, as the handshake reads
them from the node object model). -/
structure HProperty where
  id : String
  settable : Bool
  restore : Bool
deriving DecidableEq

/-- A registered node: its id and declared-order property list. Callbacks
are identified by the owning node's id in the traces. -/
structure HNode where
  id : String
  properties : List HProperty
deriving DecidableEq

/-- The `HomieDevice` configuration fixed at construction.  `platform`,
`localIp`, `mac` and `fwVersion` stand for the external collaborators
(`sys.platform`, `utils.get_local_ip`, `utils.get_local_mac`,
`homie.__version__`) that the device merely forwards into payloads. -/
structure Device where
  deviceName : List Nat
  btopic : String
  deviceId : String
  nodes : List HNode
  extensions : List String
  platform : String
  localIp : List Nat
  mac : List Nat
  fwVersion : PyVal
  statsInterval : Int
deriving DecidableEq

/-- `self.dtopic = SLASH.join((self.btopic, device_id))`; `SLASH` is the
path separator `b"/"` (constant from `homie.constants`, not under `src/`;
the spec's topic layout section fixes it as `/`). -/
def dtopic (d : Device) : String :=
  d.btopic ++ "/" ++ d.deviceId

/-- `format_topic`: absolute topic for a device-relative topic. -/
def formatTopic (d : Device) (topic : String) : String :=
  dtopic d ++ "/" ++ topic

/-- The mutable device state the handshake touches: the `_first_start`
flag and the keys of the `callback_topics` dict (in insertion order; the
value stored under a node id is that node's callback). -/
structure DeviceState where
  firstStart : Bool
  callbackTopics : List String
deriving DecidableEq

/-- State after `__init__`: `self._first_start = True`,
`self.callback_topics = {}`. -/
def initState : DeviceState :=
  { firstStart := true, callbackTopics := [] }

/-- Which fixed delay constant a `sleep_ms` call uses
(`RESTORE_DELAY` inside the restore sequence, `MAIN_DELAY` for the
readiness-gate hold). -/
inductive DelayKind where
  | restore
  | main
deriving DecidableEq

/-- One externally visible step of the handshake / metadata announcement:
a `self.publish(topic, payload)` call (relative topic, payload before
encoding, retained), a raw `mqtt.subscribe`, a `self.subscribe` /
`self.unsubscribe` (absolute topic), a timed delay, a node metadata walk
(`n.publish_properties()`), task creation for the watchdog feeder or the
stats reporter, and the readiness-gate `_EVENT.set()` / `_EVENT.clear()`. -/
inductive Ev where
  | pub (topic : String) (payload : PyVal)
  | mqttSub (topic : String)
  | sub (topic : String)
  | unsub (topic : String)
  | delay (k : DelayKind)
  | nodePub (nid : String)
  | startWdt
  | startStats
  | eventSet
  | eventClear
deriving DecidableEq

/-- Body of the handshake's inner property loop for one property `p` of
node `n`: if `p.settable`, register the node's callback under its id if
absent, run the restore sequence (subscribe, `RESTORE_DELAY`,
unsubscribe) when `p.restore`, then subscribe to the `/set` topic.
Returns the updated callback-key list and the emitted events. -/
def handleProperty (d : Device) (n : HNode) (p : HProperty)
    (cb : List String) : List String × List Ev :=
  if p.settable then
    let cb1 := if n.id ∈ cb then cb else cb ++ [n.id]
    let restoreEvs :=
      if p.restore then
        [Ev.sub (formatTopic d (n.id ++ "/" ++ p.id)),
         Ev.delay .restore,
         Ev.unsub (formatTopic d (n.id ++ "/" ++ p.id))]
      else []
    (cb1, restoreEvs ++ [Ev.sub (formatTopic d (n.id ++ "/" ++ p.id ++ "/set"))])
  else (cb, [])

/-- The handshake's property loop (`for p in props`). -/
def handleProps (d : Device) (n : HNode) :
    List HProperty → List String → List String × List Ev
  | [], cb => (cb, [])
  | p :: ps, cb =>
    let r1 := handleProperty d n p cb
    let r2 := handleProps d n ps r1.1
    (r2.1, r1.2 ++ r2.2)

/-- The handshake's node loop (`for n in nodes`). -/
def handleNodes (d : Device) :
    List HNode → List String → List String × List Ev
  | [], cb => (cb, [])
  | n :: ns, cb =>
    let r1 := handleProps d n n.properties cb
    let r2 := handleNodes d ns r1.1
    (r2.1, r1.2 ++ r2.2)

/-- The extension block at the end of `publish_properties`: runs only when
`self._extensions` is non-empty; publishes the comma-joined extension
list, then the legacy-firmware block and/or the legacy-stats block when
the corresponding extension id is enabled. -/
def extTrace (d : Device) : List Ev :=
  if d.extensions.isEmpty then []
  else
    [Ev.pub "$extensions"
      (.bytes (List.intercalate (utf8Encode ",") (d.extensions.map utf8Encode)))]
    ++ (if "org.homie.legacy-firmware:0.1.1:[4.x]" ∈ d.extensions then
          [Ev.pub "$localip" (.bytes d.localIp),
           Ev.pub "$mac" (.bytes d.mac),
           Ev.pub "$fw/name" (bstr "Microhomie"),
           Ev.pub "$fw/version" d.fwVersion]
        else [])
    ++ (if "org.homie.legacy-stats:0.1.1:[4.x]" ∈ d.extensions then
          [Ev.pub "$stats/interval" (.pyint d.statsInterval),
           Ev.startStats]
        else [])

/-- Trace of `publish_properties`: the five device-metadata publishes
(`$homie`, `$name`, `$state = init`, `$implementation`, `$nodes`), the
node metadata walks in declared order, then the extension block.
`DEVICE_STATE = b"$state"` and `STATE_INIT = b"init"` come from
`homie.constants`, which is not under `src/`; modelled from the spec's
topic layout (`$state` with values `init`/`ready`/`recover`/`lost`). -/
def publishPropsTrace (d : Device) : List Ev :=
  [Ev.pub "$homie" (bstr "4.0.0"),
   Ev.pub "$name" (.bytes d.deviceName),
   Ev.pub "$state" (bstr "init"),
   Ev.pub "$implementation" (.bytes (utf8Encode d.platform)),
   Ev.pub "$nodes"
     (.bytes (List.intercalate (utf8Encode ",")
       (d.nodes.map (fun n => utf8Encode n.id))))]
  ++ d.nodes.map (fun n => Ev.nodePub n.id)
  ++ extTrace d

/-- The first-connection block of `connection_handler`: on `_first_start`,
run `publish_properties`, flip the flag to `False`, create the watchdog
task, then open the readiness gate briefly (`_EVENT.set()`,
`sleep_ms(MAIN_DELAY)`, `_EVENT.clear()`). -/
def firstStartBlock (d : Device) : List Ev :=
  publishPropsTrace d
  ++ [Ev.startWdt, Ev.eventSet, Ev.delay .main, Ev.eventClear]

/-- One full `connection_handler` run from device state `s`: publish
`$state = recover` when not the first start, subscribe to the shared
broadcast topic, run the node/property loop, run the first-start block
when `_first_start` is still true, and finally publish `$state = ready`.
Returns the successor state and the event trace. -/
def handshake (d : Device) (s : DeviceState) : DeviceState × List Ev :=
  let recoverEvs :=
    if s.firstStart = false then [Ev.pub "$state" (bstr "recover")] else []
  let r := handleNodes d d.nodes s.callbackTopics
  let firstEvs := if s.firstStart = true then firstStartBlock d else []
  let fs1 := if s.firstStart = true then false else s.firstStart
  ({ firstStart := fs1, callbackTopics := r.1 },
   recoverEvs
   ++ [Ev.mqttSub (d.btopic ++ "/$broadcast/#")]
   ++ r.2
   ++ firstEvs
   ++ [Ev.pub "$state" (bstr "ready")])

/-- Device state after `k` completed handshakes, starting from the
`__init__` state. -/
def stateAfter (d : Device) : Nat → DeviceState
  | 0 => initState
  | k + 1 => (handshake d (stateAfter d k)).1

/-- Concatenated event trace of `n` successive handshakes starting from
state `s` (each reconnection triggers `connection_handler` again). -/
def processTrace (d : Device) : Nat → DeviceState → List Ev
  | 0, _ => []
  | n + 1, s => (handshake d s).2 ++ processTrace d n (handshake d s).1

/-- A callback invocation performed by `sub_cb`: either a node's
`broadcast_callback` or the node property callback registered in
`callback_topics`, identified by node id; arguments are the full topic,
the payload and the retained flag, as passed. -/
inductive Call where
  | bcast (nid : String) (topic : String) (msg : String) (retained : Bool)
  | node (nid : String) (topic : String) (msg : String) (retained : Bool)
deriving DecidableEq

/-- Whether a `Call` is a node property callback invocation. -/
def Call.isNodeCall : Call → Bool
  | .node _ _ _ _ => true
  | _ => false

/-- Python `bytes.split(b"/")` on the topic byte string, as a split of
the character list on each `/` (empty segments kept, `split` of the
empty string yields one empty segment). -/
def splitSlash : List Char → List (List Char)
  | [] => [[]]
  | a :: as =>
    let r := splitSlash as
    if a = '/' then [] :: r
    else
      match r with
      | [] => [[a]]
      | g :: gs => (a :: g) :: gs

/-- Number of path segments of the device topic:
`len(self.dtopic.split(SLASH))`. -/
def prefixDepth (d : Device) : Nat :=
  (splitSlash (dtopic d).data).length

/-- `sub_cb(topic, msg, retained)`: if the topic contains the byte
substring `/$broadcast` anywhere, fan the message out to every node's
`broadcast_callback` in declared order; otherwise index the topic's
segment list at the device-topic depth (`none` models the uncaught
`IndexError` on a too-short topic) and invoke the registered callback
for that node id, or do nothing when the id is unregistered. -/
def subCb (d : Device) (cbt : List String) (topic : String) (msg : String)
    (retained : Bool) : Option (List Call) :=
  if "/$broadcast".data <:+: topic.data then
    some (d.nodes.map (fun n => Call.bcast n.id topic msg retained))
  else
    match (splitSlash topic.data)[prefixDepth d]? with
    | none => none
    | some seg =>
      if String.mk seg ∈ cbt then
        some [Call.node (String.mk seg) topic msg retained]
      else some []

/-- A message handed to `mqtt.publish`: absolute topic, encoded payload
bytes, retain flag. -/
structure MqttMsg where
  topic : String
  payload : List Nat
  retain : Bool
deriving DecidableEq

/-- `publish(topic, payload, retain=True)`: encode a non-bytes payload as
`bytes(str(payload), "utf-8")`, pass bytes through, and publish under
the device topic. -/
def publish (d : Device) (topic : String) (payload : PyVal)
    (retain : Bool) : MqttMsg :=
  let pl :=
    match payload with
    | .bytes b => b
    | p => utf8Encode (pyStr p)
  { topic := dtopic d ++ "/" ++ topic, payload := pl, retain := retain }

/-- `broadcast(payload, level=None)`: same payload encoding as `publish`
(duplicated in the source), topic `btopic/$broadcast` with the optional
level appended, never retained. -/
def broadcast (d : Device) (payload : PyVal) (level : Option String) :
    MqttMsg :=
  let pl :=
    match payload with
    | .bytes b => b
    | p => utf8Encode (pyStr p)
  let topic :=
    match level with
    | none => d.btopic ++ "/" ++ "$broadcast"
    | some lvl => (d.btopic ++ "/" ++ "$broadcast") ++ "/" ++ lvl
  { topic := topic, payload := pl, retain := false }

/-- One step of the `run` coroutine as observed externally. -/
inductive RunEv where
  | connectAttempt
  | handshakeRun
  | errorPrint
  | delayMs (n : Nat)
  | reset
  | loopTick
deriving DecidableEq

/-- The `run` coroutine: attempt `mqtt.connect()`; on `OSError` print the
error, `sleep_ms(5000)` and `machine.reset()` (full device restart); on
success the Broker invokes `connection_handler` (its connect coroutine)
and `run` idles in its delay loop (truncated at `fuel` ticks). -/
def run (connectOk : Bool) (fuel : Nat) : List RunEv :=
  if connectOk then
    RunEv.connectAttempt :: RunEv.handshakeRun :: List.replicate fuel RunEv.loopTick
  else
    [RunEv.connectAttempt, RunEv.errorPrint, RunEv.delayMs 5000, RunEv.reset]

/-- A concrete sample device: one node `relay` with a settable, restorable
property `power`. -/
def sampleDevice : Device :=
  { deviceName := utf8Encode "mydevice"
    btopic := "homie"
    deviceId := "dev1"
    nodes := [{ id := "relay", properties := [{ id := "power", settable := true, restore := true }] }]
    extensions := []
    platform := "esp32"
    localIp := []
    mac := []
    fwVersion := bstr "3.0.0"
    statsInterval := 60 }

/-- Whether an event is a `subscribe` or `unsubscribe` issued through the
device's `subscribe`/`unsubscribe` helpers. -/
def isSubEv : Ev → Bool
  | .sub _ => true
  | .unsub _ => true
  | _ => false

/-- The events the property loop emits for one property, as a standalone
list (the loop's trace is their concatenation). -/
def propEvs (d : Device) (n : HNode) (p : HProperty) : List Ev :=
  if p.settable then
    (if p.restore then
      [Ev.sub (formatTopic d (n.id ++ "/" ++ p.id)),
       Ev.delay .restore,
       Ev.unsub (formatTopic d (n.id ++ "/" ++ p.id))]
    else [])
    ++ [Ev.sub (formatTopic d (n.id ++ "/" ++ p.id ++ "/set"))]
  else []

lemma handleProperty_snd (d : Device) (n : HNode) (p : HProperty)
    (cb : List String) : (handleProperty d n p cb).2 = propEvs d n p := by
  unfold handleProperty propEvs
  cases hs : p.settable <;> simp

lemma handleProps_snd (d : Device) (n : HNode) :
    ∀ (ps : List HProperty) (cb : List String),
      (handleProps d n ps cb).2 = ps.flatMap (propEvs d n) := by
  intro ps
  induction ps with
  | nil => intro cb; simp [handleProps]
  | cons p ps ih =>
      intro cb
      simp [handleProps, handleProperty_snd, ih]

lemma handleNodes_snd (d : Device) :
    ∀ (ns : List HNode) (cb : List String),
      (handleNodes d ns cb).2
        = ns.flatMap (fun n => n.properties.flatMap (propEvs d n)) := by
  intro ns
  induction ns with
  | nil => intro cb; simp [handleNodes]
  | cons n ns ih =>
      intro cb
      simp [handleNodes, handleProps_snd, ih]

lemma mem_propEvs_shape (d : Device) (n : HNode) (p : HProperty) (e : Ev)
    (he : e ∈ propEvs d n p) : isSubEv e = true ∨ e = Ev.delay .restore := by
  unfold propEvs at he
  cases hs : p.settable <;> cases hr : p.restore <;>
    simp [hs, hr] at he <;>
    rcases he with h | h | h | h <;> simp_all [isSubEv]

lemma mem_handleNodes_shape (d : Device) (ns : List HNode)
    (cb : List String) (e : Ev) (he : e ∈ (handleNodes d ns cb).2) :
    isSubEv e = true ∨ e = Ev.delay .restore := by
  rw [handleNodes_snd] at he
  simp only [List.mem_flatMap] at he
  obtain ⟨n, -, p, -, hp⟩ := he
  exact mem_propEvs_shape d n p e hp

lemma mem_extTrace_isSubEv_false (d : Device) (e : Ev)
    (he : e ∈ extTrace d) : isSubEv e = false := by
  unfold extTrace at he
  split at he
  · simp at he
  · rcases List.mem_append.1 he with h | h
    · rcases List.mem_append.1 h with h | h
      · simp only [List.mem_cons, List.not_mem_nil, or_false] at h
        simp [h, isSubEv]
      · split at h
        · simp only [List.mem_cons, List.not_mem_nil, or_false] at h
          rcases h with h | h | h | h <;> simp [h, isSubEv]
        · simp at h
    · split at h
      · simp only [List.mem_cons, List.not_mem_nil, or_false] at h
        rcases h with h | h <;> simp [h, isSubEv]
      · simp at h

lemma mem_publishProps_isSubEv_false (d : Device) (e : Ev)
    (he : e ∈ publishPropsTrace d) : isSubEv e = false := by
  unfold publishPropsTrace at he
  rcases List.mem_append.1 he with h | h
  · rcases List.mem_append.1 h with h | h
    · simp only [List.mem_cons, List.not_mem_nil, or_false] at h
      rcases h with h | h | h | h | h <;> simp [h, isSubEv]
    · simp only [List.mem_map] at h
      obtain ⟨n, -, h⟩ := h
      simp [← h, isSubEv]
  · exact mem_extTrace_isSubEv_false d e h

/-- Claim C1: for every registered node (in declared order) and every of
its settable properties (in declared order), the handshake emits, for a
`restore` property, subscribe to `<node-id>/<property-id>`, the fixed
restore delay, unsubscribe from that topic, then subscribe to
`<node-id>/<property-id>/set`, in this exact order and exactly once; for
a non-`restore` settable property only the single `/set` subscribe; and
no subscribe/unsubscribe events occur outside this per-property
sequence. -/
theorem c1_restore_subscription_sequence (d : Device) (s : DeviceState) :
    ∃ pre suf,
      (handshake d s).2
        = pre
          ++ d.nodes.flatMap (fun n =>
              n.properties.flatMap (fun p =>
                if p.settable then
                  (if p.restore then
                    [Ev.sub (formatTopic d (n.id ++ "/" ++ p.id)),
                     Ev.delay .restore,
                     Ev.unsub (formatTopic d (n.id ++ "/" ++ p.id))]
                  else [])
                  ++ [Ev.sub (formatTopic d (n.id ++ "/" ++ p.id ++ "/set"))]
                else []))
          ++ suf
      ∧ (∀ e ∈ pre, isSubEv e = false)
      ∧ (∀ e ∈ suf, isSubEv e = false) := by
  refine ⟨(if s.firstStart = false then [Ev.pub "$state" (bstr "recover")] else [])
          ++ [Ev.mqttSub (d.btopic ++ "/$broadcast/#")],
         (if s.firstStart = true then firstStartBlock d else [])
          ++ [Ev.pub "$state" (bstr "ready")], ?_, ?_, ?_⟩
  · simp only [handshake, handleNodes_snd, List.append_assoc]
    rfl
  · intro e he
    simp only [List.mem_append] at he
    rcases he with he | he
    · cases h : s.firstStart <;> simp [h] at he <;> simp [he, isSubEv]
    · simp at he; simp [he, isSubEv]
  · intro e he
    simp only [List.mem_append] at he
    rcases he with he | he
    · cases h : s.firstStart
      · simp [h] at he
      · simp [h, firstStartBlock] at he
        rcases he with he | he
        · exact mem_publishProps_isSubEv_false d e he
        · rcases he with h1 | h1 | h1 | h1 <;> simp [h1, isSubEv]
    · simp at he; simp [he, isSubEv]

/-- Closed witness for C1 at the sample device and initial state. -/
theorem c1_restore_subscription_sequence_witness :
    ∃ pre suf,
      (handshake sampleDevice initState).2
        = pre
          ++ sampleDevice.nodes.flatMap (fun n =>
              n.properties.flatMap (fun p =>
                if p.settable then
                  (if p.restore then
                    [Ev.sub (formatTopic sampleDevice (n.id ++ "/" ++ p.id)),
                     Ev.delay .restore,
                     Ev.unsub (formatTopic sampleDevice (n.id ++ "/" ++ p.id))]
                  else [])
                  ++ [Ev.sub
                        (formatTopic sampleDevice (n.id ++ "/" ++ p.id ++ "/set"))]
                else []))
          ++ suf
      ∧ (∀ e ∈ pre, isSubEv e = false)
      ∧ (∀ e ∈ suf, isSubEv e = false) :=
  c1_restore_subscription_sequence sampleDevice initState

lemma extTrace_no_state_pub (d : Device) (e : Ev) (he : e ∈ extTrace d)
    (p : PyVal) : e ≠ Ev.pub "$state" p := by
  unfold extTrace at he
  split at he
  · simp at he
  · rcases List.mem_append.1 he with h | h
    · rcases List.mem_append.1 h with h | h
      · simp only [List.mem_cons, List.not_mem_nil, or_false] at h
        simp [h]
      · split at h
        · simp only [List.mem_cons, List.not_mem_nil, or_false] at h
          rcases h with h | h | h | h <;> simp [h]
        · simp at h
    · split at h
      · simp only [List.mem_cons, List.not_mem_nil, or_false] at h
        rcases h with h | h <;> simp [h]
      · simp at h

lemma recover_not_mem_publishProps (d : Device) :
    Ev.pub "$state" (bstr "recover") ∉ publishPropsTrace d := by
  intro he
  unfold publishPropsTrace at he
  rcases List.mem_append.1 he with h | h
  · rcases List.mem_append.1 h with h | h
    · simp only [List.mem_cons, List.not_mem_nil, or_false] at h
      rcases h with h | h | h | h | h
      · exact absurd h (by decide)
      · exact absurd h (by simp)
      · exact absurd h (by simp [bstr]; decide)
      · exact absurd h (by simp)
      · exact absurd h (by simp)
    · simp only [List.mem_map] at h
      obtain ⟨n, -, h⟩ := h
      exact absurd h (by simp)
  · exact extTrace_no_state_pub d _ h (bstr "recover") rfl

/-- Claim C3: on every handshake after the first (`first_start` already
false) the device publishes `$state = recover` before it publishes
`$state = ready`; on the first handshake `$state = recover` is never
published. -/
theorem c3_recover_before_ready (d : Device) (s : DeviceState) :
    (s.firstStart = false →
      ∃ l1 l2 l3, (handshake d s).2
        = l1 ++ Ev.pub "$state" (bstr "recover")
            :: (l2 ++ Ev.pub "$state" (bstr "ready") :: l3)) ∧
    (s.firstStart = true →
      Ev.pub "$state" (bstr "recover") ∉ (handshake d s).2) := by
  constructor
  · intro h
    refine ⟨[], Ev.mqttSub (d.btopic ++ "/$broadcast/#")
              :: (handleNodes d d.nodes s.callbackTopics).2, [], ?_⟩
    simp [handshake, h]
  · intro h hm
    simp only [handshake, h] at hm
    rw [if_neg (by decide : ¬(true = false))] at hm
    rcases List.mem_append.1 hm with hm | hm
    · rcases List.mem_append.1 hm with hm | hm
      · rcases List.mem_append.1 hm with hm | hm
        · rcases List.mem_append.1 hm with hm | hm
          · simp at hm
          · simp at hm
        · rcases mem_handleNodes_shape d _ _ _ hm with hs | hs <;>
            simp [isSubEv] at hs
      · rw [if_pos trivial] at hm
        unfold firstStartBlock at hm
        rcases List.mem_append.1 hm with hm | hm
        · exact recover_not_mem_publishProps d hm
        · simp only [List.mem_cons, List.not_mem_nil, or_false] at hm
          rcases hm with hm | hm | hm | hm <;> simp at hm
    · simp only [List.mem_cons, List.not_mem_nil, or_false] at hm
      rw [Ev.pub.injEq] at hm
      exact absurd hm.2 (by simp [bstr]; decide)

/-- Closed witness for C3 at the sample device: the recover/ready order
on a non-first handshake and the absence of recover on the first. -/
theorem c3_recover_before_ready_witness :
    (∃ l1 l2 l3,
      (handshake sampleDevice { firstStart := false, callbackTopics := [] }).2
        = l1 ++ Ev.pub "$state" (bstr "recover")
            :: (l2 ++ Ev.pub "$state" (bstr "ready") :: l3)) ∧
    Ev.pub "$state" (bstr "recover") ∉ (handshake sampleDevice initState).2 :=
  ⟨(c3_recover_before_ready sampleDevice
      { firstStart := false, callbackTopics := [] }).1 rfl,
   (c3_recover_before_ready sampleDevice initState).2 rfl⟩

lemma handshake_fs (d : Device) (s : DeviceState) :
    (handshake d s).1.firstStart = false := by
  unfold handshake
  cases h : s.firstStart <;> simp [h]

/-- Claim C4: `_first_start` is true from construction until the first
handshake completes, then false after every later handshake; it never
returns to true (the handshake is the only operation writing it). -/
theorem c4_first_start_transitions_once (d : Device) :
    (stateAfter d 0).firstStart = true ∧
    ∀ k, 1 ≤ k → (stateAfter d k).firstStart = false := by
  refine ⟨rfl, ?_⟩
  intro k hk
  cases k with
  | zero => omega
  | succ j => exact handshake_fs d (stateAfter d j)

/-- Closed witness for C4 at the sample device. -/
theorem c4_first_start_transitions_once_witness :
    (stateAfter sampleDevice 0).firstStart = true ∧
    (stateAfter sampleDevice 1).firstStart = false :=
  ⟨(c4_first_start_transitions_once sampleDevice).1,
   (c4_first_start_transitions_once sampleDevice).2 1 (by decide)⟩

/-- Number of gate-open executions (`_EVENT.set()` calls) in a trace. -/
def setCount (tr : List Ev) : Nat :=
  (tr.filter (fun e => decide (e = Ev.eventSet))).length

lemma setCount_append (a b : List Ev) :
    setCount (a ++ b) = setCount a + setCount b := by
  simp [setCount, List.filter_append]

lemma setCount_eq_zero_of_not_mem (tr : List Ev)
    (h : Ev.eventSet ∉ tr) : setCount tr = 0 := by
  rw [setCount, List.length_eq_zero, List.filter_eq_nil_iff]
  intro a ha
  simp only [decide_eq_true_eq]
  exact fun hh => h (hh ▸ ha)

lemma eventSet_not_mem_handleNodes (d : Device) (ns : List HNode)
    (cb : List String) : Ev.eventSet ∉ (handleNodes d ns cb).2 := by
  intro h
  rcases mem_handleNodes_shape d ns cb _ h with hs | hs <;> simp [isSubEv] at hs

lemma eventSet_not_mem_extTrace (d : Device) :
    Ev.eventSet ∉ extTrace d := by
  intro he
  have := mem_extTrace_isSubEv_false d _ he
  revert this
  unfold extTrace at he
  split at he
  · simp at he
  · rcases List.mem_append.1 he with h | h
    · rcases List.mem_append.1 h with h | h
      · simp only [List.mem_cons, List.not_mem_nil, or_false] at h
        simp at h
      · split at h
        · simp only [List.mem_cons, List.not_mem_nil, or_false] at h
          rcases h with h | h | h | h <;> simp at h
        · simp at h
    · split at h
      · simp only [List.mem_cons, List.not_mem_nil, or_false] at h
        rcases h with h | h <;> simp at h
      · simp at h

lemma eventSet_not_mem_publishProps (d : Device) :
    Ev.eventSet ∉ publishPropsTrace d := by
  intro he
  unfold publishPropsTrace at he
  rcases List.mem_append.1 he with h | h
  · rcases List.mem_append.1 h with h | h
    · simp only [List.mem_cons, List.not_mem_nil, or_false] at h
      rcases h with h | h | h | h | h <;> simp at h
    · simp only [List.mem_map] at h
      obtain ⟨n, -, h⟩ := h
      simp at h
  · exact eventSet_not_mem_extTrace d h

lemma eventSet_not_mem_handshake_false (d : Device) (s : DeviceState)
    (h : s.firstStart = false) : Ev.eventSet ∉ (handshake d s).2 := by
  intro hm
  simp only [handshake, h] at hm
  rw [if_pos trivial, if_neg (by decide : ¬(false = true))] at hm
  rcases List.mem_append.1 hm with hm | hm
  · rcases List.mem_append.1 hm with hm | hm
    · rcases List.mem_append.1 hm with hm | hm
      · rcases List.mem_append.1 hm with hm | hm
        · simp at hm
        · simp at hm
      · exact eventSet_not_mem_handleNodes d _ _ hm
    · simp at hm
  · simp at hm

lemma setCount_handshake_true (d : Device) (s : DeviceState)
    (h : s.firstStart = true) : setCount (handshake d s).2 = 1 := by
  simp only [handshake, h]
  rw [if_pos trivial, if_neg (by decide : ¬(true = false))]
  rw [setCount_append, setCount_append, setCount_append, setCount_append]
  rw [setCount_eq_zero_of_not_mem [] (by simp)]
  rw [setCount_eq_zero_of_not_mem
        [Ev.mqttSub (d.btopic ++ "/$broadcast/#")] (by simp)]
  rw [setCount_eq_zero_of_not_mem _ (eventSet_not_mem_handleNodes d _ _)]
  rw [setCount_eq_zero_of_not_mem
        [Ev.pub "$state" (bstr "ready")] (by simp)]
  unfold firstStartBlock
  rw [setCount_append,
      setCount_eq_zero_of_not_mem _ (eventSet_not_mem_publishProps d)]
  simp [setCount]

/-- Counterexample to claim C2 as stated: in the two-handshake process
trace of the sample device, the first gate window has closed by index 15
(`_EVENT.clear()` is at index 14), the trace continues past index 15
with the entire second handshake, yet no `_EVENT.set()` occurs at or
after index 15 — a task that starts waiting after the window closes is
not released by the next handshake. -/
theorem c2_counterexample_no_reopen :
    (processTrace sampleDevice 2 initState)[14]? = some Ev.eventClear ∧
    15 < (processTrace sampleDevice 2 initState).length ∧
    Ev.eventSet ∉ (processTrace sampleDevice 2 initState).drop 15 := by
  decide

/-- Claim C2 amended: the gate-open window (`_EVENT.set()`,
`sleep_ms(MAIN_DELAY)`, `_EVENT.clear()`) executes exactly once in the
process lifetime, during the first handshake; handshakes that start with
`_first_start` already false never open the gate, so a task that starts
waiting after the first window closes is never released. -/
lemma eventSet_not_mem_processTrace_of_false (d : Device) :
    ∀ (n : Nat) (s : DeviceState), s.firstStart = false →
      Ev.eventSet ∉ processTrace d n s := by
  intro n
  induction n with
  | zero => intro s h; simp [processTrace]
  | succ m ih =>
      intro s h hm
      rcases List.mem_append.1 hm with hm | hm
      · exact eventSet_not_mem_handshake_false d s h hm
      · exact ih _ (handshake_fs d s) hm

theorem c2_amended_gate_opens_once (d : Device) (s : DeviceState) (n : Nat) :
    (s.firstStart = false → Ev.eventSet ∉ processTrace d n s) ∧
    (s.firstStart = true → 1 ≤ n → setCount (processTrace d n s) = 1) := by
  constructor
  · exact eventSet_not_mem_processTrace_of_false d n s
  · intro h hn
    cases n with
    | zero => omega
    | succ m =>
        rw [show processTrace d (m + 1) s
              = (handshake d s).2 ++ processTrace d m (handshake d s).1 from rfl,
            setCount_append, setCount_handshake_true d s h,
            setCount_eq_zero_of_not_mem _
              (eventSet_not_mem_processTrace_of_false d m _ (handshake_fs d s))]

/-- Closed witness for the amended C2 at the sample device. -/
theorem c2_amended_gate_opens_once_witness :
    (Ev.eventSet ∉
       processTrace sampleDevice 1 { firstStart := false, callbackTopics := [] }) ∧
    setCount (processTrace sampleDevice 2 initState) = 1 :=
  ⟨(c2_amended_gate_opens_once sampleDevice
      { firstStart := false, callbackTopics := [] } 1).1 rfl,
   (c2_amended_gate_opens_once sampleDevice initState 2).2 rfl (by decide)⟩

/-- Claim C5: on the first handshake the metadata announcement publishes,
in this exact order, the protocol version marker (`$homie`), the device
display name (`$name`), `$state = init`, the platform identifier
(`$implementation`) and the comma-joined node-id list (`$nodes`), then
walks each node's own metadata exactly once in declared order (followed
by the extension block); and this announcement runs inside the
first-start handshake. -/
theorem c5_metadata_announcement_order (d : Device) (s : DeviceState) :
    publishPropsTrace d
      = [Ev.pub "$homie" (bstr "4.0.0"),
         Ev.pub "$name" (.bytes d.deviceName),
         Ev.pub "$state" (bstr "init"),
         Ev.pub "$implementation" (.bytes (utf8Encode d.platform)),
         Ev.pub "$nodes"
           (.bytes (List.intercalate (utf8Encode ",")
             (d.nodes.map (fun n => utf8Encode n.id))))]
        ++ d.nodes.map (fun n => Ev.nodePub n.id)
        ++ extTrace d
    ∧ (s.firstStart = true →
        ∃ pre post, (handshake d s).2 = pre ++ publishPropsTrace d ++ post) := by
  refine ⟨rfl, ?_⟩
  intro h
  refine ⟨[Ev.mqttSub (d.btopic ++ "/$broadcast/#")]
            ++ (handleNodes d d.nodes s.callbackTopics).2,
          [Ev.startWdt, Ev.eventSet, Ev.delay .main, Ev.eventClear]
            ++ [Ev.pub "$state" (bstr "ready")], ?_⟩
  simp [handshake, h, firstStartBlock, List.append_assoc]

/-- Closed witness for C5: the announcement embedded in the sample
device's first handshake. -/
theorem c5_metadata_announcement_order_witness :
    ∃ pre post, (handshake sampleDevice initState).2
      = pre ++ publishPropsTrace sampleDevice ++ post :=
  (c5_metadata_announcement_order sampleDevice initState).2 rfl

/-- Claim C6: a message whose topic contains the broadcast marker is
delivered to every registered node's `broadcast_callback`, exactly once
per node in declared order, with topic, payload and retained flag
unchanged, and no node property callback is invoked. -/
theorem c6_broadcast_fanout (d : Device) (cbt : List String)
    (topic msg : String) (retained : Bool)
    (h : "/$broadcast".data <:+: topic.data) :
    subCb d cbt topic msg retained
      = some (d.nodes.map (fun n => Call.bcast n.id topic msg retained))
    ∧ ∀ l, subCb d cbt topic msg retained = some l →
        ∀ c ∈ l, Call.isNodeCall c = false := by
  have he : subCb d cbt topic msg retained
      = some (d.nodes.map (fun n => Call.bcast n.id topic msg retained)) := by
    unfold subCb
    rw [if_pos h]
  refine ⟨he, ?_⟩
  intro l hl c hc
  rw [he, Option.some.injEq] at hl
  subst hl
  simp only [List.mem_map] at hc
  obtain ⟨n, -, hn⟩ := hc
  simp [← hn, Call.isNodeCall]

/-- Closed witness for C6: a broadcast to the sample device's one node. -/
theorem c6_broadcast_fanout_witness :
    subCb sampleDevice [] "homie/$broadcast/alert" "x" false
      = some [Call.bcast "relay" "homie/$broadcast/alert" "x" false] := by
  rw [(c6_broadcast_fanout sampleDevice [] "homie/$broadcast/alert" "x" false
        (by decide)).1]
  decide

lemma subCb_not_broadcast (d : Device) (cbt : List String)
    (topic msg : String) (retained : Bool) (seg : List Char)
    (hb : ¬ ("/$broadcast".data <:+: topic.data))
    (hs : (splitSlash topic.data)[prefixDepth d]? = some seg) :
    subCb d cbt topic msg retained
      = some (if String.mk seg ∈ cbt then
                [Call.node (String.mk seg) topic msg retained]
              else []) := by
  unfold subCb
  rw [if_neg hb, hs]
  show (if String.mk seg ∈ cbt then
          some [Call.node (String.mk seg) topic msg retained]
        else some ([] : List Call))
      = some (if String.mk seg ∈ cbt then
                [Call.node (String.mk seg) topic msg retained]
              else [])
  by_cases hk : String.mk seg ∈ cbt
  · rw [if_pos hk, if_pos hk]
  · rw [if_neg hk, if_neg hk]

lemma subCb_short_topic (d : Device) (cbt : List String)
    (topic msg : String) (retained : Bool)
    (hb : ¬ ("/$broadcast".data <:+: topic.data))
    (hs : (splitSlash topic.data)[prefixDepth d]? = none) :
    subCb d cbt topic msg retained = none := by
  unfold subCb
  rw [if_neg hb, hs]

/-- Claim C7: a non-broadcast message whose topic has a segment at the
device-topic prefix depth is dispatched to the callback registered under
that segment when present, with `(topic, payload, retained)` unchanged,
and is silently dropped (no callback, no error) when the segment is not
a registered node id. -/
theorem c7_node_dispatch (d : Device) (cbt : List String)
    (topic msg : String) (retained : Bool) (seg : List Char)
    (hb : ¬ ("/$broadcast".data <:+: topic.data))
    (hs : (splitSlash topic.data)[prefixDepth d]? = some seg) :
    subCb d cbt topic msg retained
      = some (if String.mk seg ∈ cbt then
                [Call.node (String.mk seg) topic msg retained]
              else []) :=
  subCb_not_broadcast d cbt topic msg retained seg hb hs

/-- Closed witness for C7: a `/set` command for the registered node
`relay` and the same topic with an unregistered callback map. -/
theorem c7_node_dispatch_witness :
    (¬ ("/$broadcast".data <:+: "homie/dev1/relay/power/set".data)) ∧
    subCb sampleDevice ["relay"] "homie/dev1/relay/power/set" "on" true
      = some [Call.node "relay" "homie/dev1/relay/power/set" "on" true] ∧
    subCb sampleDevice [] "homie/dev1/relay/power/set" "on" true = some [] := by
  refine ⟨by decide, ?_, ?_⟩
  · rw [c7_node_dispatch sampleDevice ["relay"] "homie/dev1/relay/power/set"
        "on" true "relay".data (by decide) (by decide)]
    decide
  · rw [c7_node_dispatch sampleDevice [] "homie/dev1/relay/power/set"
        "on" true "relay".data (by decide) (by decide)]
    decide

/-- Claim C8: when the initial `mqtt.connect()` raises `OSError`, the
connection handler is never invoked; `run` prints the error, waits the
fixed 5000 ms delay and forces a full device restart (`machine.reset`),
with no per-step retry. -/
theorem c8_connect_failure_restart (fuel : Nat) :
    run false fuel
      = [RunEv.connectAttempt, RunEv.errorPrint, RunEv.delayMs 5000,
         RunEv.reset]
    ∧ RunEv.handshakeRun ∉ run false fuel := by
  constructor
  · simp [run]
  · simp [run]

/-- Closed witness for C8 at zero loop fuel. -/
theorem c8_connect_failure_restart_witness :
    run false 0
      = [RunEv.connectAttempt, RunEv.errorPrint, RunEv.delayMs 5000,
         RunEv.reset]
    ∧ RunEv.handshakeRun ∉ run false 0 :=
  c8_connect_failure_restart 0

/-- Claim C9: for both `publish` and `broadcast`, a `bytes` payload is
handed to the Broker unchanged, and any non-bytes payload is handed over
as the UTF-8 encoding of its `str()` representation. -/
theorem c9_payload_encoding (d : Device) (topic : String) (retain : Bool)
    (level : Option String) :
    (∀ b, (publish d topic (.bytes b) retain).payload = b) ∧
    (∀ b, (broadcast d (.bytes b) level).payload = b) ∧
    (∀ p : PyVal, (∀ b, p ≠ .bytes b) →
      (publish d topic p retain).payload = utf8Encode (pyStr p) ∧
      (broadcast d p level).payload = utf8Encode (pyStr p)) := by
  refine ⟨fun b => rfl, fun b => rfl, ?_⟩
  intro p hp
  cases p with
  | bytes b => exact absurd rfl (hp b)
  | pystr s => exact ⟨rfl, rfl⟩
  | pyint n => exact ⟨rfl, rfl⟩

/-- Closed witness for C9: the integer stats interval is encoded via its
string representation. -/
theorem c9_payload_encoding_witness :
    (publish sampleDevice "$stats/interval" (.pyint 60) true).payload
      = utf8Encode (pyStr (.pyint 60)) :=
  ((c9_payload_encoding sampleDevice "$stats/interval" true none).2.2
    (.pyint 60) (fun b => by simp)).1

/-- Claim C10: `sub_cb` classifies a message as a broadcast exactly when
the topic contains the byte substring `/$broadcast` anywhere — in
particular any topic built as `pre ++ "/$broadcast" ++ suf` (e.g. under
the device's own prefix) is fanned out to the broadcast callbacks and
never reaches a node property callback — and a topic without the
substring never produces a broadcast callback. -/
theorem c10_broadcast_marker_is_substring (d : Device) (cbt : List String)
    (msg : String) (retained : Bool) :
    (∀ pre suf : String,
      subCb d cbt (pre ++ "/$broadcast" ++ suf) msg retained
        = some (d.nodes.map (fun n =>
            Call.bcast n.id (pre ++ "/$broadcast" ++ suf) msg retained)))
    ∧ (∀ topic : String, ¬ ("/$broadcast".data <:+: topic.data) →
        ∀ l, subCb d cbt topic msg retained = some l →
          ∀ c ∈ l, Call.isNodeCall c = true) := by
  constructor
  · intro pre suf
    have hdata : (pre ++ "/$broadcast" ++ suf).data
        = pre.data ++ "/$broadcast".data ++ suf.data := by
      simp
    have hinf : "/$broadcast".data <:+: (pre ++ "/$broadcast" ++ suf).data := by
      rw [hdata]
      exact List.infix_append pre.data "/$broadcast".data suf.data
    unfold subCb
    rw [if_pos hinf]
  · intro topic hb l hl c hc
    cases hm : (splitSlash topic.data)[prefixDepth d]? with
    | none =>
        rw [subCb_short_topic d cbt topic msg retained hb hm] at hl
        cases hl
    | some seg =>
        rw [subCb_not_broadcast d cbt topic msg retained seg hb hm,
            Option.some.injEq] at hl
        subst hl
        by_cases hk : String.mk seg ∈ cbt
        · rw [if_pos hk] at hc
          simp only [List.mem_singleton] at hc
          simp [hc, Call.isNodeCall]
        · rw [if_neg hk] at hc
          simp at hc

/-- Closed witness for C10: an embedded broadcast marker under the sample
device's own prefix fans out, and a marker-free topic yields only a node
call. -/
theorem c10_broadcast_marker_is_substring_witness :
    subCb sampleDevice [] ("homie/dev1" ++ "/$broadcast" ++ "/x") "m" false
      = some [Call.bcast "relay" ("homie/dev1" ++ "/$broadcast" ++ "/x") "m" false]
    ∧ ∀ c ∈ [Call.node "relay" "homie/dev1/relay/power/set" "on" true],
        Call.isNodeCall c = true := by
  constructor
  · rw [(c10_broadcast_marker_is_substring sampleDevice [] "m" false).1
          "homie/dev1" "/x"]
    decide
  · intro c hc
    exact (c10_broadcast_marker_is_substring sampleDevice ["relay"] "on"
        true).2 "homie/dev1/relay/power/set" (by decide) _ (by decide) c hc

end Microhomie
